import Mathlib

/-!
# Verification of the Profee PDF-processor service

A shallow embedding of `src/services/pdf-processor.js` (the repository file
holding `extractTextFromPDF`, `validatePDF`, `chunkText`, `detectDocumentType`,
`preparePDFForAnalysis`) together with proofs and refutations of the frozen
claims about it.

Modelling conventions:
* JS strings are `List Char`; JS byte buffers are `List Nat`.
* A JS value that may be `undefined`/`null` is an `Option`.
* A function that may `throw` returns `Except (List Char) α`, the error
  message as the payload.
* The external primitives (`pdf-parse`, `pdf-lib`'s `PDFDocument.load`) are
  parameters of the embedded functions: the claims quantify over their
  behaviour.
* JS numbers that the code uses as (possibly negative) integers are `Int`.
  The single floating-point expression in the file, `chunkSize * 0.7`, is
  modelled as the exact rational 7/10 (the comparison `b > s + cs * 0.7`
  becomes `10 * b > 10 * s + 7 * cs`); every claim settled here is
  insensitive to the sub-ulp difference between `0.7` and its binary
  rounding, since the only concrete chunking input exercised has no
  paragraph or sentence breaks at all.
-/

namespace Profee

/-- The JS whitespace class used by `\s`, `String.prototype.trim` and
`replace(/\s+/g,'')`: the common ASCII members plus NBSP (the further
exotic Unicode space code points never occur in any string handled here). -/
def jsWhitespace (c : Char) : Bool :=
  c = ' ' || c = '\t' || c = '\n' || c = '\r' || c = '\x0b' || c = '\x0c' || c = ' '

/-- `String.prototype.trim`: strip leading and trailing whitespace. -/
def jsTrim (s : List Char) : List Char :=
  ((s.dropWhile jsWhitespace).reverse.dropWhile jsWhitespace).reverse

/-- `v || d` for a possibly-`undefined` JS number `v`: `undefined`, and the
falsy number `0`, are replaced by the default. -/
def jsOr (v : Option Int) (d : Int) : Int :=
  match v with
  | none => d
  | some x => if x = 0 then d else x

/-- `String.prototype.slice(a, b)`: negative indices count from the end,
then both are clamped to `[0, length]`. -/
def jsSlice (s : List Char) (a b : Int) : List Char :=
  let len : Int := s.length
  let a' : Int := if a < 0 then max (len + a) 0 else min a len
  let b' : Int := if b < 0 then max (len + b) 0 else min b len
  (s.take b'.toNat).drop a'.toNat

/-- Does `pat` occur in `s` starting exactly at index `k`? -/
def matchesAt (s pat : List Char) (k : Nat) : Bool :=
  pat.isPrefixOf (s.drop k)

/-- Largest `m ≤ k` such that `pat` occurs in `s` at `m`, else `-1`. -/
def lastIndexFrom (s pat : List Char) : Nat → Int
  | 0 => if matchesAt s pat 0 then 0 else -1
  | k + 1 => if matchesAt s pat (k + 1) then ((k : Int) + 1) else lastIndexFrom s pat k

/-- `String.prototype.lastIndexOf(pat, pos)`: the start index of the last
occurrence of `pat` beginning at or before `pos` (clamped to `[0, length]`),
or `-1` if there is none. -/
def jsLastIndexOf (s pat : List Char) (pos : Int) : Int :=
  lastIndexFrom s pat (min pos (s.length : Int)).toNat

/-! ## Constants (lines 36-46 of the source) -/

/-- Maximum PDF file size in bytes (50 MB). -/
def MAX_PDF_SIZE : Nat := 50 * 1024 * 1024

/-- Minimum text length to consider a PDF as text-based. -/
def MIN_TEXT_THRESHOLD : Nat := 50

/-- Maximum characters per chunk for AI API calls. -/
def DEFAULT_CHUNK_SIZE : Int := 100000

/-- Overlap between chunks to preserve context at boundaries. -/
def DEFAULT_CHUNK_OVERLAP : Int := 500

/-! ## `chunkText` (source lines 341-411) -/

/-- The chunk objects produced by `chunkText`. -/
structure Chunk where
  text : List Char
  index : Nat
  total : Nat
  startChar : Int
  endChar : Int
deriving DecidableEq, Repr

/-- The optional second argument of `chunkText` / `preparePDFForAnalysis`. -/
structure ChunkOptions where
  chunkSize : Option Int := none
  overlap : Option Int := none
deriving DecidableEq, Repr

/-- The paragraph-break pattern searched for by the chunker. -/
def parBreakPat : List Char := ['\n', '\n']

/-- The sentence-break pattern searched for by the chunker. -/
def sentBreakPat : List Char := ['.', ' ']

/-- The loop's tentative end: `Math.min(start + chunkSize, text.length)`. -/
def tentativeEnd (text : List Char) (chunkSize start : Int) : Int :=
  min (start + chunkSize) (text.length : Int)

/-- The boundary-snapping of the loop body (source lines 372-387): if the
tentative end is not the end of the text, snap back to just past the last
paragraph break, else the last sentence break, provided the break sits
beyond `start + chunkSize * 0.7`; otherwise keep the tentative end. -/
def snapEnd (text : List Char) (chunkSize start : Int) : Int :=
  let end0 := tentativeEnd text chunkSize start
  if end0 < (text.length : Int) then
    let pb := jsLastIndexOf text parBreakPat end0
    if 10 * pb > 10 * start + 7 * chunkSize then pb + 2
    else
      let sb := jsLastIndexOf text sentBreakPat end0
      if 10 * sb > 10 * start + 7 * chunkSize then sb + 2
      else end0
  else end0

/-- The `while (start < text.length)` loop of `chunkText`. One fuel unit is
consumed per iteration; `chunkText` supplies `text.length` units, which is
enough because every iteration advances `start` by at least one. -/
def chunkLoop (text : List Char) (chunkSize overlap : Int) :
    Nat → Int → List Chunk → List Chunk
  | 0, _, acc => acc
  | fuel + 1, start, acc =>
    if start < (text.length : Int) then
      let end1 := snapEnd text chunkSize start
      let chunk : Chunk := ⟨jsSlice text start end1, acc.length, 0, start, end1⟩
      let start1 := end1 - overlap
      let start2 := if start1 ≤ start then end1 else start1
      chunkLoop text chunkSize overlap fuel start2 (acc ++ [chunk])
    else acc

/-- The post-loop pass `chunks.forEach((chunk) => { chunk.total = chunks.length })`. -/
def assignTotals (cs : List Chunk) : List Chunk :=
  cs.map fun c => { c with total := cs.length }

/-- `chunkText(text, options)` (source lines 341-411). Splits text into
overlapping chunks; throws on a non-positive effective chunk size or an
overlap at least as large as the chunk size. -/
def chunkText (text : List Char) (options : ChunkOptions) : Except (List Char) (List Chunk) :=
  if text = [] then .ok []
  else
    let chunkSize := jsOr options.chunkSize DEFAULT_CHUNK_SIZE
    let overlap := jsOr options.overlap DEFAULT_CHUNK_OVERLAP
    if chunkSize ≤ 0 then .error ("chunkSize must be a positive number".data)
    else if overlap ≥ chunkSize then .error ("overlap must be less than chunkSize".data)
    else if (text.length : Int) ≤ chunkSize then
      .ok [⟨text, 0, 1, 0, (text.length : Int)⟩]
    else
      .ok (assignTotals (chunkLoop text chunkSize overlap text.length 0 []))

/-! ## Byte buffers and external primitives -/

/-- The argument of the buffer-taking entry points: either a JS value that
is not a Buffer, or a Buffer of bytes. -/
inductive BufferInput where
  | notBuffer
  | buffer (bytes : List Nat)
deriving DecidableEq, Repr

/-- `Buffer.prototype.toString('ascii')`: each byte is masked to 7 bits. -/
def asciiDecode (bytes : List Nat) : List Char :=
  bytes.map fun b => Char.ofNat (b % 128)

/-- The `info` object of a `pdf-parse` result; each field may be absent. -/
structure PdfInfo where
  Title : Option (List Char) := none
  Author : Option (List Char) := none
  Creator : Option (List Char) := none
  Producer : Option (List Char) := none
deriving DecidableEq, Repr

/-- What the external `pdf-parse` primitive resolves to. -/
structure ParsedPDF where
  text : Option (List Char) := none
  numpages : Option Int := none
  info : Option PdfInfo := none
deriving DecidableEq, Repr

/-- `a.includes(b)` on JS strings: does `pat` occur as a contiguous
substring? -/
def hasSubstr (pat : List Char) : List Char → Bool
  | [] => pat.isPrefixOf []
  | c :: rest => pat.isPrefixOf (c :: rest) || hasSubstr pat rest

/-- `parsed.info?.F || ''`: empty when `info` is absent, when the field is
absent, and when the field is the (falsy) empty string. -/
def metaField (i : Option PdfInfo) (f : PdfInfo → Option (List Char)) : List Char :=
  match i with
  | none => []
  | some x => (f x).getD []

/-- The metadata record built by `extractTextFromPDF`. -/
structure PdfMetadata where
  title : List Char
  author : List Char
  creator : List Char
  producer : List Char
deriving DecidableEq, Repr

/-- The result record of `extractTextFromPDF`. -/
structure ExtractResult where
  text : List Char
  pageCount : Int
  hasTextLayer : Bool
  metadata : PdfMetadata
deriving DecidableEq, Repr

/-- The decimal rendering of `(n / (1024*1024)).toFixed(1)` used in the
oversize error messages, modelled as exact round-half-up to one decimal
(the source computes it in binary floating point, which can differ in the
final digit only on exact-tie sizes; no claim inspects this text). -/
def toFixed1MB (n : Nat) : List Char :=
  let d := (10 * n + 524288) / 1048576
  Nat.toDigits 10 (d / 10) ++ ('.' :: Nat.toDigits 10 (d % 10))

/-- `extractTextFromPDF(pdfBuffer)` (source lines 108-149), with the
`pdf-parse` primitive as a parameter: it either resolves to a parse result
or throws with a message. The input checks preceding the `try` block throw
directly; inside the catch block a primitive error whose message contains
"Invalid" is re-thrown as-is, every other one is wrapped. -/
def extractTextFromPDF (pdfParse : List Nat → Except (List Char) ParsedPDF)
    (input : BufferInput) : Except (List Char) ExtractResult :=
  match input with
  | .notBuffer => .error ("Invalid input: pdfBuffer must be a Buffer".data)
  | .buffer buf =>
    if buf.length = 0 then .error ("Invalid input: PDF buffer is empty".data)
    else if buf.length > MAX_PDF_SIZE then
      .error ("PDF file size (".data ++ toFixed1MB buf.length ++
        " MB) exceeds maximum allowed size (50 MB)".data)
    else
      match pdfParse buf with
      | .ok parsed =>
        let text := parsed.text.getD []
        let trimmedText := jsTrim text
        let hasTextLayer := decide (MIN_TEXT_THRESHOLD ≤ trimmedText.length)
        .ok ⟨trimmedText, jsOr parsed.numpages 0, hasTextLayer,
          ⟨metaField parsed.info PdfInfo.Title, metaField parsed.info PdfInfo.Author,
           metaField parsed.info PdfInfo.Creator, metaField parsed.info PdfInfo.Producer⟩⟩
      | .error m =>
        if hasSubstr ("Invalid".data) m then .error m
        else .error ("Failed to parse PDF: ".data ++ m)

/-- The result record of `validatePDF`. -/
structure ValidationResult where
  isValid : Bool
  fileSize : Nat
  pageCount : Int
  error : Option (List Char)
deriving DecidableEq, Repr

/-- `validatePDF(pdfBuffer)` (source lines 172-233), with the pdf-lib
`PDFDocument.load` + `getPageCount` primitive as a parameter: it either
yields a page count or throws with a message. Every path returns a record;
nothing is thrown. -/
def validatePDF (load : List Nat → Except (List Char) Int)
    (input : BufferInput) : ValidationResult :=
  match input with
  | .notBuffer => ⟨false, 0, 0, some ("Input must be a Buffer containing PDF data".data)⟩
  | .buffer buf =>
    if buf.length = 0 then ⟨false, 0, 0, some ("PDF buffer is empty".data)⟩
    else if buf.length > MAX_PDF_SIZE then
      ⟨false, buf.length, 0, some ("File size (".data ++ toFixed1MB buf.length ++
        " MB) exceeds maximum (50 MB)".data)⟩
    else if asciiDecode (buf.take 5) ≠ "%PDF-".data then
      ⟨false, buf.length, 0,
        some ("File does not have a valid PDF header. Ensure this is a PDF file.".data)⟩
    else
      match load buf with
      | .ok pageCount => ⟨true, buf.length, pageCount, none⟩
      | .error m =>
        ⟨false, buf.length, 0,
          some ("PDF structure is corrupted or unreadable: ".data ++ m)⟩

/-! ## A small regular-expression engine

`detectDocumentType` uses a fixed catalog of JS regexes built from literal
characters (case-insensitive under the `i` flag), character classes,
`\s*`, `\s+`, `.*`, optional elements, alternation, bounded digit
repetition and one capture group. The engine below implements exactly
those constructs with JS backtracking order: alternation prefers its first
branch and quantifiers are greedy, so the first success of `mrun` is the
JS match. -/

/-- Regular expressions over the constructs the catalog needs. A star is
restricted to a character class, which is all the source patterns use. -/
inductive Rx where
  | eps
  | chr (p : Char → Bool)
  | cat (a b : Rx)
  | alt (a b : Rx)
  | starC (p : Char → Bool)
  | group (a : Rx)

/-- Remainders after consuming a greedy run of `p`-characters,
longest-consumed first. -/
def starRem (p : Char → Bool) : List Char → List (List Char)
  | [] => [[]]
  | c :: rest => if p c then starRem p rest ++ [c :: rest] else [c :: rest]

/-- Run a regex against a prefix of `s`, producing the list of
(remaining suffix, capture-group content) pairs in JS backtracking order. -/
def mrun : Rx → List Char → List (List Char × Option (List Char))
  | .eps, s => [(s, none)]
  | .chr p, s =>
    match s with
    | [] => []
    | c :: rest => if p c then [(rest, none)] else []
  | .cat a b, s =>
    (mrun a s).flatMap fun x =>
      (mrun b x.1).map fun y => (y.1, x.2.orElse fun _ => y.2)
  | .alt a b, s => mrun a s ++ mrun b s
  | .starC p, s => (starRem p s).map fun r => (r, none)
  | .group a, s =>
    (mrun a s).map fun x => (x.1, some (s.take (s.length - x.1.length)))

/-- First match of `r` in `s` scanning start positions left to right:
`(start, end, group-1 content)` in offsets absolute to the suffix passed
at `i = 0`. -/
def firstMatch (r : Rx) : List Char → Nat → Option (Nat × Nat × Option (List Char))
  | s, i =>
    match mrun r s with
    | x :: _ => some (i, i + (s.length - x.1.length), x.2)
    | [] =>
      match s with
      | [] => none
      | _ :: rest => firstMatch r rest (i + 1)

/-- `regex.test(text)`: does the pattern match anywhere? -/
def rtest (r : Rx) (s : List Char) : Bool :=
  (firstMatch r s 0).isSome

/-- The `while ((m = re.exec(text)) !== null)` loop over a global regex:
pairs of (full match, group-1 content), each search resuming at the end of
the previous match. Fuel bounds the iterations; every pattern used here
consumes at least one character per match, so `length + 1` suffices. -/
def execLoop (r : Rx) : Nat → List Char → List (List Char × Option (List Char))
  | 0, _ => []
  | fuel + 1, s =>
    match firstMatch r s 0 with
    | none => []
    | some (i, e, g) => ((s.drop i).take (e - i), g) :: execLoop r fuel (s.drop e)

/-- `text.match(regex)` with the `g` flag: all full matches in order. -/
def allMatches (r : Rx) (s : List Char) : List (List Char) :=
  (execLoop r (s.length + 1) s).map Prod.fst

/-- All capture-group-1 contents from the exec loop, in order. -/
def allGroup1 (r : Rx) (s : List Char) : List (List Char) :=
  (execLoop r (s.length + 1) s).map fun x => x.2.getD []

/-- `[...new Set(xs)]`: deduplicate keeping first occurrences. -/
def dedupFirst (seen : List (List Char)) : List (List Char) → List (List Char)
  | [] => []
  | x :: xs => if x ∈ seen then dedupFirst seen xs else x :: dedupFirst (x :: seen) xs

/-- A case-insensitive single character (the `i` flag). -/
def ciChr (c : Char) : Rx := .chr fun x => x.toLower = c.toLower

/-- An exact single character. -/
def exChr (c : Char) : Rx := .chr fun x => x = c

/-- Concatenation of a list of regexes. -/
def rcat (l : List Rx) : Rx := l.foldr .cat .eps

/-- A case-insensitive literal string. -/
def litCI (s : String) : Rx := rcat (s.data.map ciChr)

/-- Greedy optional element. -/
def ropt (r : Rx) : Rx := .alt r .eps

/-- `\s` as a regex. -/
def wsChr : Rx := .chr jsWhitespace

/-- `\s*`. -/
def wsStar : Rx := .starC jsWhitespace

/-- `\s+`. -/
def wsPlus : Rx := .cat wsChr wsStar

/-- `.` with no dotall flag: anything but a line terminator. -/
def dotC (c : Char) : Bool := !(c = '\n' || c = '\r' || c = '\u2028' || c = '\u2029')

/-- `.*`. -/
def dotStar : Rx := .starC dotC

/-- `[0-9]` / `\d` as a character class. -/
def digitC (c : Char) : Bool := '0' ≤ c && c ≤ '9'

/-- `\d` as a regex. -/
def digit : Rx := .chr digitC

/-- `[A-Z]` as a character class. -/
def upperC (c : Char) : Bool := 'A' ≤ c && c ≤ 'Z'

/-- `[A-Z]` as a regex. -/
def upper : Rx := .chr upperC

/-- A catalog pattern of the form `/section\s*NNN/i`. -/
def secPlain (s : String) : Rx := rcat [litCI "section", wsStar, litCI s]

/-- A catalog pattern of the form `/section\s*NNN\s*\(\s*M\s*\)/i`. -/
def secParen (maj sub : String) : Rx :=
  rcat [litCI "section", wsStar, litCI maj, wsStar, exChr '(', wsStar, litCI sub,
    wsStar, exChr ')']

/-- The fixed catalog `IT_SECTION_PATTERNS` (source lines 49-67): each
entry is (pattern, document-type label, section label). -/
def IT_SECTION_PATTERNS : List (Rx × List Char × List Char) :=
  [ (secParen "143" "1", "Intimation".data, "143(1)".data),
    (secParen "143" "2", "Scrutiny Notice".data, "143(2)".data),
    (secParen "143" "3", "Assessment Order".data, "143(3)".data),
    (secPlain "144", "Best Judgment Assessment".data, "144".data),
    (secPlain "147", "Reassessment".data, "147".data),
    (secPlain "148", "Reassessment Notice".data, "148".data),
    (secPlain "148A", "Reassessment Notice".data, "148A".data),
    (secPlain "154", "Rectification Order".data, "154".data),
    (secPlain "156", "Demand Notice".data, "156".data),
    (secPlain "245", "Set Off Notice".data, "245".data),
    (secPlain "246A", "Appeal".data, "246A".data),
    (secPlain "250", "CIT(A) Order".data, "250".data),
    (secPlain "254", "ITAT Order".data, "254".data),
    (secPlain "263", "Revision Order".data, "263".data),
    (secPlain "264", "Revision Order".data, "264".data),
    (secPlain "271", "Penalty Notice".data, "271".data),
    (secPlain "274", "Penalty Notice".data, "274".data) ]

/-- `PAN_REGEX = /[A-Z]{5}[0-9]{4}[A-Z]/g` (source line 70). -/
def PAN_REGEX : Rx :=
  rcat [upper, upper, upper, upper, upper, digit, digit, digit, digit, upper]

/-- The `[-â€“]` class of `AY_REGEX`: exactly the characters present in the
source file (a hyphen and the three characters of a mojibake en dash). -/
def dashC (c : Char) : Bool := c = '-' || c = 'â' || c = '€' || c = '“'

/-- `AY_REGEX` (source line 73):
`/(?:A\.?\s*Y\.?\s*|Assessment\s+Year\s*:?\s*)(\d{4}\s*[-â€“]\s*\d{2,4})/gi`,
with `\d{2,4}` expanded to its greedy nesting `\d\d(\d(\d)?)?`. -/
def AY_REGEX : Rx :=
  .cat
    (.alt (rcat [ciChr 'A', ropt (exChr '.'), wsStar, ciChr 'Y', ropt (exChr '.'), wsStar])
      (rcat [litCI "Assessment", wsPlus, litCI "Year", wsStar, ropt (exChr ':'), wsStar]))
    (.group (rcat [digit, digit, digit, digit, wsStar, .chr dashC, wsStar,
      digit, digit, ropt (.cat digit (ropt digit))]))

/-- The ten income-tax keyword regexes (source lines 475-486). -/
def itKeywords : List Rx :=
  [ rcat [litCI "income", wsStar, litCI "tax"],
    rcat [litCI "assessing", wsStar, litCI "officer"],
    rcat [litCI "commissioner", dotStar, litCI "income", wsStar, litCI "tax"],
    rcat [litCI "centralized", wsStar, litCI "processing", wsStar, litCI "centre"],
    rcat [litCI "CPC", dotStar, litCI "Bengaluru"],
    litCI "CBDT",
    rcat [litCI "Form", wsStar, litCI "No", exChr '.', wsStar,
      .alt (litCI "16") (.alt (litCI "26AS") (litCI "ITR"))],
    rcat [litCI "total", wsStar, litCI "income"],
    rcat [litCI "tax", wsStar, litCI "payable"],
    rcat [litCI "assessment", wsStar, litCI "year"] ]

/-! ## `detectDocumentType` (source lines 435-497) -/

/-- The classification record returned by `detectDocumentType`. -/
structure DocInfo where
  sections : List (List Char)
  documentType : List Char
  panNumbers : List (List Char)
  assessmentYears : List (List Char)
  isIncomeTaxDocument : Bool
deriving DecidableEq, Repr

/-- The all-default classification returned for non-string or empty input. -/
def emptyDocInfo : DocInfo := ⟨[], "Unknown".data, [], [], false⟩

/-- `detectDocumentType(text)` (source lines 435-497): collect the section
labels of every catalog pattern that matches, take the document type from
the first match, extract deduplicated PAN numbers and whitespace-stripped
assessment years, and flag the text as an income-tax document when a
section matched or at least two keyword regexes match. -/
def detectDocumentType (text : List Char) : DocInfo :=
  if text = [] then emptyDocInfo
  else
    let matched := IT_SECTION_PATTERNS.filter fun e => rtest e.1 text
    let matchedSections := matched.map fun e => e.2.2
    let documentType :=
      match matched with
      | [] => "Unknown".data
      | e :: _ => e.2.1
    let panNumbers := dedupFirst [] (allMatches PAN_REGEX text)
    let assessmentYears :=
      dedupFirst [] ((allGroup1 AY_REGEX text).map fun s =>
        s.filter fun c => !jsWhitespace c)
    let keywordMatches := (itKeywords.filter fun r => rtest r text).length
    ⟨matchedSections, documentType, panNumbers, assessmentYears,
      decide (matchedSections ≠ []) || decide (2 ≤ keywordMatches)⟩

/-! ## `preparePDFForAnalysis` (source lines 542-609) -/

/-- The metadata defaults used in failure records. -/
def emptyMetadata : PdfMetadata := ⟨[], [], [], []⟩

/-- `pdfBuffer ? pdfBuffer.length : 0`. -/
def inputSize (input : BufferInput) : Nat :=
  match input with
  | .notBuffer => 0
  | .buffer buf => buf.length

/-- The result record of `preparePDFForAnalysis`. -/
structure PreparedResult where
  isValid : Bool
  error : Option (List Char)
  text : List Char
  pageCount : Int
  hasTextLayer : Bool
  metadata : PdfMetadata
  documentInfo : DocInfo
  chunks : List Chunk
  fileSize : Nat
deriving DecidableEq, Repr

/-- The record returned from the catch block of `preparePDFForAnalysis`
(source lines 590-608): the thrown message is wrapped, the page count
already obtained from validation is preserved, everything else defaults. -/
def prepFailure (validation : ValidationResult) (input : BufferInput)
    (m : List Char) : PreparedResult :=
  ⟨false, some ("PDF processing failed: ".data ++ m), [], validation.pageCount, false,
    emptyMetadata, emptyDocInfo, [], inputSize input⟩

/-- `preparePDFForAnalysis(pdfBuffer, options)` (source lines 542-609):
validate, then extract, classify and chunk, catching any thrown error into
a failure-shaped record. -/
def preparePDFForAnalysis (load : List Nat → Except (List Char) Int)
    (pdfParse : List Nat → Except (List Char) ParsedPDF)
    (input : BufferInput) (options : ChunkOptions) : PreparedResult :=
  let validation := validatePDF load input
  if validation.isValid = false then
    ⟨false, validation.error, [], 0, false, emptyMetadata, emptyDocInfo, [],
      inputSize input⟩
  else
    match extractTextFromPDF pdfParse input with
    | .error m => prepFailure validation input m
    | .ok extraction =>
      let documentInfo := detectDocumentType extraction.text
      match chunkText extraction.text
          ⟨some (jsOr options.chunkSize DEFAULT_CHUNK_SIZE),
           some (jsOr options.overlap DEFAULT_CHUNK_OVERLAP)⟩ with
      | .error m => prepFailure validation input m
      | .ok chunks =>
        ⟨true, none, extraction.text, extraction.pageCount, extraction.hasTextLayer,
          extraction.metadata, documentInfo, chunks, inputSize input⟩

/-! ## Evaluation lemmas for the chunk loop -/

/-- A pattern whose head differs from `'A'` is never a prefix of a run of `'A'`s. -/
lemma isPrefixOf_replicate_false {c : Char} (cs : List Char) (hc : c ≠ 'A') (m : Nat) :
    (c :: cs).isPrefixOf (List.replicate m 'A') = false := by
  cases m with
  | zero => rfl
  | succ m =>
    simp only [List.replicate, List.isPrefixOf, Bool.and_eq_false_imp]
    simp [hc]

/-- A pattern whose head differs from `'A'` matches nowhere in a run of `'A'`s. -/
lemma matchesAt_replicate_A {c : Char} (cs : List Char) (hc : c ≠ 'A') (n k : Nat) :
    matchesAt (List.replicate n 'A') (c :: cs) k = false := by
  unfold matchesAt
  rw [List.drop_replicate]
  exact isPrefixOf_replicate_false cs hc _

lemma lastIndexFrom_replicate_A {c : Char} (cs : List Char) (hc : c ≠ 'A') (n : Nat) :
    ∀ k, lastIndexFrom (List.replicate n 'A') (c :: cs) k = -1 := by
  intro k
  induction k with
  | zero => simp [lastIndexFrom, matchesAt_replicate_A cs hc]
  | succ k ih => simp [lastIndexFrom, matchesAt_replicate_A cs hc, ih]

lemma jsLastIndexOf_replicate_A {c : Char} (cs : List Char) (hc : c ≠ 'A') (n : Nat)
    (pos : Int) : jsLastIndexOf (List.replicate n 'A') (c :: cs) pos = -1 := by
  unfold jsLastIndexOf
  exact lastIndexFrom_replicate_A cs hc n _

/-- Neither break pattern ever occurs in a run of `'A'`s. -/
lemma noBreaks_replicate_A (n : Nat) (pos : Int) :
    jsLastIndexOf (List.replicate n 'A') parBreakPat pos = -1 ∧
      jsLastIndexOf (List.replicate n 'A') sentBreakPat pos = -1 :=
  ⟨jsLastIndexOf_replicate_A ['\n'] (by decide) n pos,
   jsLastIndexOf_replicate_A [' '] (by decide) n pos⟩

/-- The loop is a no-op once `start` has reached the end of the text. -/
lemma chunkLoop_stop (text : List Char) (cs ov : Int) (fuel : Nat) (start : Int)
    (acc : List Chunk) (h : ¬ start < (text.length : Int)) :
    chunkLoop text cs ov fuel start acc = acc := by
  cases fuel <;> simp [chunkLoop, h]

/-- One iteration of the loop, with the snapped end named. -/
lemma chunkLoop_step (text : List Char) (cs ov : Int) (fuel : Nat) (start : Int)
    (acc : List Chunk) (h : start < (text.length : Int)) :
    chunkLoop text cs ov (fuel + 1) start acc =
      chunkLoop text cs ov fuel
        (if snapEnd text cs start - ov ≤ start then snapEnd text cs start
         else snapEnd text cs start - ov)
        (acc ++ [⟨jsSlice text start (snapEnd text cs start), acc.length, 0, start,
          snapEnd text cs start⟩]) := by
  simp only [chunkLoop, if_pos h]

/-- When neither break pattern occurs at or before the tentative end, the
snapping logic keeps the tentative end. -/
lemma snapEnd_noBreak (text : List Char) (cs start : Int)
    (hpb : jsLastIndexOf text parBreakPat (tentativeEnd text cs start) = -1)
    (hsb : jsLastIndexOf text sentBreakPat (tentativeEnd text cs start) = -1)
    (hcs : 0 < cs) (hstart : 0 ≤ start) :
    snapEnd text cs start = tentativeEnd text cs start := by
  have hineq : ¬ (10 * (-1 : Int) > 10 * start + 7 * cs) := by omega
  simp only [snapEnd]
  by_cases hend : tentativeEnd text cs start < (text.length : Int)
  · rw [if_pos hend, hpb, if_neg hineq, hsb, if_neg hineq]
  · rw [if_neg hend]

/-- One iteration of the loop on a stretch of text without any qualifying
break: the tentative end is kept, and `start` advances by `chunkSize - overlap`
unless the non-progress guard forces it to `end`. -/
lemma chunkLoop_step_noBreak (text : List Char) (cs ov : Int) (fuel : Nat) (start : Int)
    (acc : List Chunk) (e nxt : Int)
    (h : start < (text.length : Int))
    (hpb : jsLastIndexOf text parBreakPat e = -1)
    (hsb : jsLastIndexOf text sentBreakPat e = -1)
    (hcs : 0 < cs) (hstart : 0 ≤ start)
    (he : e = min (start + cs) (text.length : Int))
    (hnxt : nxt = if e - ov ≤ start then e else e - ov) :
    chunkLoop text cs ov (fuel + 1) start acc =
      chunkLoop text cs ov fuel nxt
        (acc ++ [⟨jsSlice text start e, acc.length, 0, start, e⟩]) := by
  have hte : tentativeEnd text cs start = e := by rw [he]; rfl
  have hpb' : jsLastIndexOf text parBreakPat (tentativeEnd text cs start) = -1 := by
    rw [hte]; exact hpb
  have hsb' : jsLastIndexOf text sentBreakPat (tentativeEnd text cs start) = -1 := by
    rw [hte]; exact hsb
  have hsnap : snapEnd text cs start = e :=
    (snapEnd_noBreak text cs start hpb' hsb' hcs hstart).trans hte
  rw [chunkLoop_step text cs ov fuel start acc h, hsnap, ← hnxt]

/-- Full run of the loop on break-free text of length 250000 with
`chunkSize = 100000` and `overlap = 500`: four chunks come out, the last one
the degenerate tail `[249500, 250000)` produced after the third chunk has
already reached the end of the text. -/
lemma chunkLoop_A250000 (T : List Char) (hT : T.length = 250000)
    (hnb : ∀ pos : Int, jsLastIndexOf T parBreakPat pos = -1 ∧
      jsLastIndexOf T sentBreakPat pos = -1) :
    chunkLoop T 100000 500 250000 0 [] =
      [⟨jsSlice T 0 100000, 0, 0, 0, 100000⟩,
       ⟨jsSlice T 99500 199500, 1, 0, 99500, 199500⟩,
       ⟨jsSlice T 199000 250000, 2, 0, 199000, 250000⟩,
       ⟨jsSlice T 249500 250000, 3, 0, 249500, 250000⟩] := by
  have hlen : (T.length : Int) = 250000 := by rw [hT]; norm_num
  rw [show (250000 : Nat) = 249999 + 1 from rfl,
    chunkLoop_step_noBreak T 100000 500 249999 0 [] 100000 99500
      (by omega) (hnb 100000).1 (hnb 100000).2 (by norm_num) le_rfl
      (by rw [hlen]; norm_num) (by norm_num)]
  simp only [List.nil_append, List.length_nil]
  rw [show (249999 : Nat) = 249998 + 1 from rfl,
    chunkLoop_step_noBreak T 100000 500 249998 99500
      [⟨jsSlice T 0 100000, 0, 0, 0, 100000⟩] 199500 199000
      (by omega) (hnb 199500).1 (hnb 199500).2 (by norm_num) (by norm_num)
      (by rw [hlen]; norm_num) (by norm_num)]
  simp only [List.singleton_append, List.length_cons, List.length_nil]
  rw [show (249998 : Nat) = 249997 + 1 from rfl,
    chunkLoop_step_noBreak T 100000 500 249997 199000
      [⟨jsSlice T 0 100000, 0, 0, 0, 100000⟩,
       ⟨jsSlice T 99500 199500, 1, 0, 99500, 199500⟩] 250000 249500
      (by omega) (hnb 250000).1 (hnb 250000).2 (by norm_num) (by norm_num)
      (by rw [hlen]; norm_num) (by norm_num)]
  simp only [List.cons_append, List.nil_append, List.length_cons, List.length_nil]
  rw [show (249997 : Nat) = 249996 + 1 from rfl,
    chunkLoop_step_noBreak T 100000 500 249996 249500
      [⟨jsSlice T 0 100000, 0, 0, 0, 100000⟩,
       ⟨jsSlice T 99500 199500, 1, 0, 99500, 199500⟩,
       ⟨jsSlice T 199000 250000, 2, 0, 199000, 250000⟩] 250000 250000
      (by omega) (hnb 250000).1 (hnb 250000).2 (by norm_num) (by norm_num)
      (by rw [hlen]; norm_num) (by norm_num)]
  simp only [List.cons_append, List.nil_append, List.length_cons, List.length_nil]
  rw [chunkLoop_stop T 100000 500 249996 250000 _ (by omega)]

/-- `assignTotals` on a four-chunk list, stated on variables so that it
rewrites without evaluating the chunks' text fields. -/
lemma assignTotals_four (a b c d : Chunk) :
    assignTotals [a, b, c, d] =
      [{ a with total := 4 }, { b with total := 4 },
       { c with total := 4 }, { d with total := 4 }] := rfl

/-- `chunkText` on 250000 `'A'`s with `chunkSize := 100000, overlap := 500`,
fully evaluated. -/
lemma chunkText_A250000 :
    chunkText (List.replicate 250000 'A') ⟨some 100000, some 500⟩ =
      .ok [⟨jsSlice (List.replicate 250000 'A') 0 100000, 0, 4, 0, 100000⟩,
        ⟨jsSlice (List.replicate 250000 'A') 99500 199500, 1, 4, 99500, 199500⟩,
        ⟨jsSlice (List.replicate 250000 'A') 199000 250000, 2, 4, 199000, 250000⟩,
        ⟨jsSlice (List.replicate 250000 'A') 249500 250000, 3, 4, 249500, 250000⟩] := by
  have hT : (List.replicate 250000 'A').length = 250000 := by
    rw [List.length_replicate]
  have hne : ¬ List.replicate 250000 'A' = [] := by
    intro h
    have h2 := congrArg List.length h
    rw [List.length_replicate, List.length_nil] at h2
    omega
  simp only [chunkText]
  rw [if_neg hne,
    show jsOr (some 100000) DEFAULT_CHUNK_SIZE = 100000 from by norm_num [jsOr],
    show jsOr (some 500) DEFAULT_CHUNK_OVERLAP = 500 from by norm_num [jsOr],
    if_neg (by norm_num : ¬ (100000 : Int) ≤ 0),
    if_neg (by norm_num : ¬ (500 : Int) ≥ 100000), hT,
    if_neg (by norm_num : ¬ (((250000 : Nat) : Int) ≤ 100000)),
    chunkLoop_A250000 _ hT (noBreaks_replicate_A 250000), assignTotals_four]

/-- Claim C1 (counterexample): on 250000 `'A'`s with `chunkSize = 100000` and
`overlap = 500`, `chunkText` returns 4 chunks, not the 3 the claim states. -/
theorem claim_C1_counterexample :
    (chunkText (List.replicate 250000 'A') ⟨some 100000, some 500⟩).map List.length =
        .ok 4 ∧
      (chunkText (List.replicate 250000 'A') ⟨some 100000, some 500⟩).map List.length ≠
        .ok 3 := by
  have h4 : (chunkText (List.replicate 250000 'A') ⟨some 100000, some 500⟩).map
      List.length = .ok 4 := by
    rw [chunkText_A250000]
    rfl
  refine ⟨h4, fun h => ?_⟩
  rw [h4] at h
  exact absurd (Except.ok.inj h) (by omega)

/-- Claim C1 (amended): on the break-free text of 250000 `'A'`s with
`chunkSize = 100000` and `overlap = 500`, `chunkText` returns exactly 4 chunks;
the first three startChars advance by 99500 (0, 99500, 199000) with boundary
snapping never firing, the third chunk already ends at 250000, and the
advance rule then emits a final degenerate chunk `[249500, 250000)`; every
chunk's `total` is 4 and the last chunk's endChar is 250000. -/
theorem claim_C1_amended :
    (chunkText (List.replicate 250000 'A') ⟨some 100000, some 500⟩).map
        (List.map fun c => (c.startChar, c.endChar, c.total)) =
      .ok [(0, 100000, 4), (99500, 199500, 4), (199000, 250000, 4),
        (249500, 250000, 4)] := by
  rw [chunkText_A250000]
  rfl

/-! ## General properties of the chunk loop (claim C2) -/

/-- Any position where a two-character pattern matches leaves room for it. -/
lemma matchesAt_two_le (s : List Char) (a b : Char) (m : Nat)
    (h : matchesAt s [a, b] m = true) : m + 2 ≤ s.length := by
  unfold matchesAt at h
  have hp := List.isPrefixOf_iff_prefix.mp h
  have hle := hp.length_le
  rw [List.length_drop] at hle
  simp only [List.length_cons, List.length_nil] at hle
  omega

/-- `lastIndexFrom` either fails or returns a position where the pattern
matches. -/
lemma lastIndexFrom_cases (s pat : List Char) (k : Nat) :
    lastIndexFrom s pat k = -1 ∨
      ∃ m : Nat, lastIndexFrom s pat k = (m : Int) ∧ matchesAt s pat m = true := by
  induction k with
  | zero =>
    by_cases h : matchesAt s pat 0
    · exact Or.inr ⟨0, by simp [lastIndexFrom, h], h⟩
    · exact Or.inl (by simp [lastIndexFrom, h])
  | succ k ih =>
    by_cases h : matchesAt s pat (k + 1)
    · exact Or.inr ⟨k + 1, by simp [lastIndexFrom, h], h⟩
    · rcases ih with h1 | ⟨m, hm, hmat⟩
      · exact Or.inl (by simp [lastIndexFrom, h, h1])
      · exact Or.inr ⟨m, by simp [lastIndexFrom, h, hm], hmat⟩

/-- `jsLastIndexOf` with a two-character pattern either returns `-1` or a
start index whose occurrence fits inside the string. -/
lemma jsLastIndexOf_two_cases (s : List Char) (a b : Char) (pos : Int) :
    jsLastIndexOf s [a, b] pos = -1 ∨
      (0 ≤ jsLastIndexOf s [a, b] pos ∧
        jsLastIndexOf s [a, b] pos + 2 ≤ (s.length : Int)) := by
  unfold jsLastIndexOf
  rcases lastIndexFrom_cases s [a, b] (min pos (s.length : Int)).toNat with h | ⟨m, hm, hmat⟩
  · exact Or.inl h
  · have hfit := matchesAt_two_le s a b m hmat
    rw [hm]
    right
    omega

lemma parBreak_cases (s : List Char) (pos : Int) :
    jsLastIndexOf s parBreakPat pos = -1 ∨
      (0 ≤ jsLastIndexOf s parBreakPat pos ∧
        jsLastIndexOf s parBreakPat pos + 2 ≤ (s.length : Int)) :=
  jsLastIndexOf_two_cases s '\n' '\n' pos

lemma sentBreak_cases (s : List Char) (pos : Int) :
    jsLastIndexOf s sentBreakPat pos = -1 ∨
      (0 ≤ jsLastIndexOf s sentBreakPat pos ∧
        jsLastIndexOf s sentBreakPat pos + 2 ≤ (s.length : Int)) :=
  jsLastIndexOf_two_cases s '.' ' ' pos

lemma tentativeEnd_bounds (text : List Char) (cs start : Int) (hcs : 0 < cs)
    (h1 : start < (text.length : Int)) :
    start < tentativeEnd text cs start ∧ tentativeEnd text cs start ≤ (text.length : Int) := by
  unfold tentativeEnd
  exact ⟨lt_min (by omega) h1, min_le_right _ _⟩

/-- The chunk end chosen by one loop iteration lies strictly beyond `start`
and never beyond the end of the text. -/
lemma snapEnd_bounds (text : List Char) (cs start : Int) (hcs : 0 < cs)
    (h0 : 0 ≤ start) (h1 : start < (text.length : Int)) :
    start < snapEnd text cs start ∧ snapEnd text cs start ≤ (text.length : Int) := by
  obtain ⟨ht1, ht2⟩ := tentativeEnd_bounds text cs start hcs h1
  simp only [snapEnd]
  by_cases hend : tentativeEnd text cs start < (text.length : Int)
  · rw [if_pos hend]
    by_cases hpb : 10 * jsLastIndexOf text parBreakPat (tentativeEnd text cs start) >
        10 * start + 7 * cs
    · rw [if_pos hpb]
      rcases parBreak_cases text (tentativeEnd text cs start) with h | ⟨hge, hle⟩
      · rw [h] at hpb; omega
      · omega
    · rw [if_neg hpb]
      by_cases hsb : 10 * jsLastIndexOf text sentBreakPat (tentativeEnd text cs start) >
          10 * start + 7 * cs
      · rw [if_pos hsb]
        rcases sentBreak_cases text (tentativeEnd text cs start) with h | ⟨hge, hle⟩
        · rw [h] at hsb; omega
        · omega
      · rw [if_neg hsb]
        exact ⟨ht1, ht2⟩
  · rw [if_neg hend]
    exact ⟨ht1, ht2⟩

/-- Invariants of a full run of the chunk loop, by induction on the fuel:
the produced chunks extend the accumulator, the first one starts at `start`,
each one's start is at most its predecessor's end, the last one ends exactly
at the end of the text, and every one carries the slice it denotes. -/
lemma chunkLoop_spec (text : List Char) (cs ov : Int) (hcs : 0 < cs) (hov : 0 < ov) :
    ∀ fuel : Nat, ∀ start : Int, ∀ acc : List Chunk,
      0 ≤ start → start < (text.length : Int) → (text.length : Int) - start ≤ (fuel : Int) →
      ∃ c0 : Chunk, ∃ rest : List Chunk,
        chunkLoop text cs ov fuel start acc = acc ++ c0 :: rest ∧
        c0.startChar = start ∧
        List.Chain' (fun x y => y.startChar ≤ x.endChar) (c0 :: rest) ∧
        ((c0 :: rest).getLast (List.cons_ne_nil c0 rest)).endChar = (text.length : Int) ∧
        ∀ c ∈ c0 :: rest, c.text = jsSlice text c.startChar c.endChar ∧
          0 ≤ c.startChar ∧ c.startChar ≤ c.endChar ∧ c.endChar ≤ (text.length : Int) := by
  intro fuel
  induction fuel with
  | zero =>
    intro start acc h0 h1 h2
    exfalso
    simp only [Nat.cast_zero] at h2
    omega
  | succ fuel ih =>
    intro start acc h0 h1 h2
    obtain ⟨hgt, hle⟩ := snapEnd_bounds text cs start hcs h0 h1
    rw [chunkLoop_step text cs ov fuel start acc h1]
    by_cases hguard : snapEnd text cs start - ov ≤ start
    case pos =>
      rw [if_pos hguard]
      -- the guard fired: the next start is the chunk end itself
      by_cases hcont : snapEnd text cs start < (text.length : Int)
      · have hfuel : (text.length : Int) - snapEnd text cs start ≤ (fuel : Int) := by
          push_cast at h2
          omega
        obtain ⟨c0', rest', heq, hstart', hchain', hlast', hmem'⟩ :=
          ih (snapEnd text cs start) _ (by omega) hcont hfuel
        refine ⟨⟨jsSlice text start (snapEnd text cs start), acc.length, 0, start,
          snapEnd text cs start⟩, c0' :: rest', ?_, rfl, ?_, ?_, ?_⟩
        · rw [heq, List.append_assoc, List.singleton_append]
        · refine List.chain'_cons.mpr ⟨?_, hchain'⟩
          rw [hstart']
        · rw [List.getLast_cons (List.cons_ne_nil c0' rest')]
          exact hlast'
        · intro c hc
          rcases List.mem_cons.mp hc with hc | hc
          · subst hc
            exact ⟨rfl, h0, le_of_lt hgt, hle⟩
          · exact hmem' c hc
      · have hend : snapEnd text cs start = (text.length : Int) := by omega
        rw [chunkLoop_stop text cs ov fuel _ _ (by omega)]
        refine ⟨⟨jsSlice text start (snapEnd text cs start), acc.length, 0, start,
          snapEnd text cs start⟩, [], rfl, rfl, List.chain'_singleton _, hend, ?_⟩
        intro c hc
        rcases List.mem_cons.mp hc with hc | hc
        · subst hc
          exact ⟨rfl, h0, le_of_lt hgt, hle⟩
        · cases hc
    case neg =>
      rw [if_neg hguard]
      have hcont : snapEnd text cs start - ov < (text.length : Int) := by omega
      have hfuel : (text.length : Int) - (snapEnd text cs start - ov) ≤ (fuel : Int) := by
        push_cast at h2
        omega
      obtain ⟨c0', rest', heq, hstart', hchain', hlast', hmem'⟩ :=
        ih (snapEnd text cs start - ov) _ (by omega) hcont hfuel
      refine ⟨⟨jsSlice text start (snapEnd text cs start), acc.length, 0, start,
        snapEnd text cs start⟩, c0' :: rest', ?_, rfl, ?_, ?_, ?_⟩
      · rw [heq, List.append_assoc, List.singleton_append]
      · refine List.chain'_cons.mpr ⟨?_, hchain'⟩
        rw [hstart']
        show snapEnd text cs start - ov ≤ snapEnd text cs start
        omega
      · rw [List.getLast_cons (List.cons_ne_nil c0' rest')]
        exact hlast'
      · intro c hc
        rcases List.mem_cons.mp hc with hc | hc
        · subst hc
          exact ⟨rfl, h0, le_of_lt hgt, hle⟩
        · exact hmem' c hc

/-- Slicing a string from 0 to its length returns the string itself. -/
lemma jsSlice_full (s : List Char) : jsSlice s 0 (s.length : Int) = s := by
  simp only [jsSlice]
  rw [if_neg (by omega : ¬ (0 : Int) < 0), if_neg (by omega : ¬ (s.length : Int) < 0),
    min_self, min_eq_left (by positivity : (0 : Int) ≤ (s.length : Int))]
  simp

/-- Claim C2: for every non-empty text, positive chunk size and overlap
strictly between 0 and the chunk size, `chunkText` succeeds with a non-empty
chunk list that covers the text without gaps: the first chunk starts at 0,
each chunk starts at or before its predecessor's end, the last chunk ends
at `text.length`, every chunk's text is the slice it denotes, and every
chunk's `total` equals the number of chunks. -/
theorem claim_C2_coverage (text : List Char) (cs ov : Int)
    (htext : text ≠ []) (hcs : 0 < cs) (hov : 0 < ov) (hoc : ov < cs) :
    ∃ chunks : List Chunk,
      chunkText text ⟨some cs, some ov⟩ = .ok chunks ∧
      chunks ≠ [] ∧
      chunks.head?.map Chunk.startChar = some 0 ∧
      List.Chain' (fun x y => y.startChar ≤ x.endChar) chunks ∧
      chunks.getLast?.map Chunk.endChar = some ((text.length : Int)) ∧
      ∀ c ∈ chunks, c.text = jsSlice text c.startChar c.endChar ∧
        c.total = chunks.length := by
  have hjs1 : jsOr (some cs) DEFAULT_CHUNK_SIZE = cs := by
    simp only [jsOr]
    rw [if_neg (by omega)]
  have hjs2 : jsOr (some ov) DEFAULT_CHUNK_OVERLAP = ov := by
    simp only [jsOr]
    rw [if_neg (by omega)]
  simp only [chunkText, hjs1, hjs2]
  rw [if_neg htext, if_neg (by omega : ¬ cs ≤ 0), if_neg (by omega : ¬ ov ≥ cs)]
  by_cases hfit : (text.length : Int) ≤ cs
  · rw [if_pos hfit]
    refine ⟨[⟨text, 0, 1, 0, (text.length : Int)⟩], rfl, List.cons_ne_nil _ _, rfl,
      List.chain'_singleton _, rfl, ?_⟩
    intro c hc
    rcases List.mem_cons.mp hc with hc | hc
    · subst hc
      exact ⟨(jsSlice_full text).symm, rfl⟩
    · cases hc
  · rw [if_neg hfit]
    have h1 : (0 : Int) < (text.length : Int) := by
      have := List.length_pos.mpr htext
      omega
    obtain ⟨c0, rest, heq, hstart, hchain, hlast, hmem⟩ :=
      chunkLoop_spec text cs ov hcs hov text.length 0 [] le_rfl h1 (by omega)
    rw [heq, List.nil_append]
    refine ⟨assignTotals (c0 :: rest), rfl, by simp [assignTotals], ?_, ?_, ?_, ?_⟩
    · simp only [assignTotals, List.head?_map, List.head?_cons, Option.map_some']
      rw [hstart]
    · exact (List.chain'_map _).mpr hchain
    · simp only [assignTotals, List.getLast?_map,
        List.getLast?_eq_getLast_of_ne_nil (List.cons_ne_nil c0 rest), Option.map_some']
      rw [hlast]
    · intro c hc
      simp only [assignTotals] at hc
      obtain ⟨a, ha, rfl⟩ := List.mem_map.mp hc
      refine ⟨(hmem a ha).1, ?_⟩
      simp [assignTotals]

/-- Witness for claim C2 at the text "abc" with chunk size 2 and overlap 1. -/
theorem claim_C2_coverage_witness :
    ∃ chunks : List Chunk,
      chunkText ['a', 'b', 'c'] ⟨some 2, some 1⟩ = .ok chunks ∧
      chunks ≠ [] ∧
      chunks.head?.map Chunk.startChar = some 0 ∧
      List.Chain' (fun x y => y.startChar ≤ x.endChar) chunks ∧
      chunks.getLast?.map Chunk.endChar = some (((['a', 'b', 'c'] : List Char).length : Int)) ∧
      ∀ c ∈ chunks, c.text = jsSlice ['a', 'b', 'c'] c.startChar c.endChar ∧
        c.total = chunks.length :=
  claim_C2_coverage ['a', 'b', 'c'] 2 1 (by decide) (by decide) (by decide) (by decide)

/-- Claim C4 (counterexample): a chunkSize of exactly 0 is falsy in the
option coalescing, so it is silently replaced by the default 100000 and no
error is raised, contradicting the claim that every chunkSize ≤ 0 fails. -/
theorem claim_C4_counterexample :
    chunkText ['h', 'i'] ⟨some 0, none⟩ = .ok [⟨['h', 'i'], 0, 1, 0, 2⟩] := by
  rfl

/-- Claim C4 (amended): a strictly negative chunkSize raises the
"chunkSize must be a positive number" error for every non-empty text, but
a chunkSize of exactly 0 is coalesced to the default 100000 before the
validation and behaves exactly as if no chunkSize had been passed. -/
theorem claim_C4_amended (text : List Char) (c : Int) (o : Option Int)
    (htext : text ≠ []) (hc : c < 0) :
    chunkText text ⟨some c, o⟩ = .error ("chunkSize must be a positive number".data) ∧
    ∀ t2 : List Char, chunkText t2 ⟨some 0, o⟩ = chunkText t2 ⟨none, o⟩ := by
  constructor
  · simp only [chunkText]
    rw [if_neg htext,
      show jsOr (some c) DEFAULT_CHUNK_SIZE = c from by
        simp only [jsOr]; rw [if_neg (by omega)],
      if_pos (by omega : c ≤ 0)]
  · intro t2
    have h00 : jsOr (some 0) DEFAULT_CHUNK_SIZE = jsOr none DEFAULT_CHUNK_SIZE := by
      simp [jsOr]
    simp only [chunkText, h00]

/-- Witness for claim C4 at text "hi" with chunkSize -5. -/
theorem claim_C4_amended_witness :
    chunkText ['h', 'i'] ⟨some (-5), none⟩ =
        .error ("chunkSize must be a positive number".data) ∧
      chunkText ['h', 'i'] ⟨some 0, none⟩ = chunkText ['h', 'i'] ⟨none, none⟩ :=
  ⟨(claim_C4_amended ['h', 'i'] (-5) none (by decide) (by decide)).1,
   (claim_C4_amended ['h', 'i'] (-5) none (by decide) (by decide)).2 ['h', 'i']⟩

/-- Claim C10: an explicit overlap of 0 is falsy and replaced by the default
500 before option validation, so zero-overlap chunking cannot be requested:
for 0 < c ≤ 500 the call throws the overlap error, and for c > 500 it
returns exactly what overlap 500 returns. -/
theorem claim_C10_overlap_zero (text : List Char) (c : Int) (htext : text ≠ []) :
    (0 < c → c ≤ 500 →
      chunkText text ⟨some c, some 0⟩ =
        .error ("overlap must be less than chunkSize".data)) ∧
    (500 < c →
      chunkText text ⟨some c, some 0⟩ = chunkText text ⟨some c, some 500⟩) := by
  constructor
  · intro h1 h2
    simp only [chunkText]
    rw [if_neg htext,
      show jsOr (some c) DEFAULT_CHUNK_SIZE = c from by
        simp only [jsOr]; rw [if_neg (by omega)],
      show jsOr (some 0) DEFAULT_CHUNK_OVERLAP = 500 from by
        simp [jsOr, DEFAULT_CHUNK_OVERLAP],
      if_neg (by omega : ¬ c ≤ 0), if_pos (by omega : (500 : Int) ≥ c)]
  · intro h1
    have hov : jsOr (some 0) DEFAULT_CHUNK_OVERLAP = jsOr (some 500) DEFAULT_CHUNK_OVERLAP := by
      simp [jsOr, DEFAULT_CHUNK_OVERLAP]
    simp only [chunkText, hov]

/-- Witness for claim C10 at text "ab" with chunk sizes 2 and 501. -/
theorem claim_C10_overlap_zero_witness :
    chunkText ['a', 'b'] ⟨some 2, some 0⟩ =
        .error ("overlap must be less than chunkSize".data) ∧
      chunkText ['a', 'b'] ⟨some 501, some 0⟩ = chunkText ['a', 'b'] ⟨some 501, some 500⟩ :=
  ⟨(claim_C10_overlap_zero ['a', 'b'] 2 (by decide)).1 (by decide) (by decide),
   (claim_C10_overlap_zero ['a', 'b'] 501 (by decide)).2 (by decide)⟩

/-! ## `extractTextFromPDF`: claims C3 and C8 -/

/-- Claim C3 (counterexample): a primitive error whose message contains
"Invalid" is re-thrown verbatim by the catch block, not wrapped in
"Failed to parse PDF: ". -/
theorem claim_C3_counterexample :
    extractTextFromPDF (fun _ => .error ("Invalid PDF structure".data)) (.buffer [37]) =
        .error ("Invalid PDF structure".data) ∧
      ("Invalid PDF structure".data : List Char) ≠
        "Failed to parse PDF: ".data ++ "Invalid PDF structure".data :=
  ⟨rfl, by decide⟩

/-- Claim C3 (amended): for a buffer passing the input checks, a primitive
error message containing "Invalid" is re-thrown unchanged, and every other
primitive error message is wrapped as "Failed to parse PDF: " followed by
the message. -/
theorem claim_C3_amended (pdfParse : List Nat → Except (List Char) ParsedPDF)
    (buf : List Nat) (m : List Char)
    (h1 : buf ≠ []) (h2 : buf.length ≤ MAX_PDF_SIZE) (h3 : pdfParse buf = .error m) :
    extractTextFromPDF pdfParse (.buffer buf) =
      .error (if hasSubstr ("Invalid".data) m then m
        else "Failed to parse PDF: ".data ++ m) := by
  simp only [extractTextFromPDF]
  rw [if_neg (fun h => h1 (List.length_eq_zero.mp h)),
    if_neg (by omega : ¬ buf.length > MAX_PDF_SIZE), h3]
  by_cases hi : hasSubstr ("Invalid".data) m
  · simp [hi]
  · simp [hi]

/-- Witness for claim C3 with a primitive message not containing "Invalid". -/
theorem claim_C3_amended_witness :
    extractTextFromPDF (fun _ => .error ("boom".data)) (.buffer [37]) =
      .error ("Failed to parse PDF: boom".data) := by
  have h := claim_C3_amended (fun _ => .error ("boom".data)) [37] ("boom".data)
    (by decide) (by decide) rfl
  rw [h]
  rfl

/-- Claim C8: for any buffer passing the input checks and any parse result
the primitive returns, the extraction result's `hasTextLayer` is true
exactly when the trimmed text reaches `MIN_TEXT_THRESHOLD = 50`. -/
theorem claim_C8_text_layer (pdfParse : List Nat → Except (List Char) ParsedPDF)
    (buf : List Nat) (parsed : ParsedPDF)
    (h1 : buf ≠ []) (h2 : buf.length ≤ MAX_PDF_SIZE) (h3 : pdfParse buf = .ok parsed) :
    ∃ r : ExtractResult, extractTextFromPDF pdfParse (.buffer buf) = .ok r ∧
      r.text = jsTrim (parsed.text.getD []) ∧
      (r.hasTextLayer = true ↔ MIN_TEXT_THRESHOLD ≤ r.text.length) := by
  simp only [extractTextFromPDF]
  rw [if_neg (fun h => h1 (List.length_eq_zero.mp h)),
    if_neg (by omega : ¬ buf.length > MAX_PDF_SIZE), h3]
  exact ⟨_, rfl, rfl, decide_eq_true_iff⟩

/-- Witness for claim C8: a 50-character extraction has a text layer, a
49-character one does not. -/
theorem claim_C8_text_layer_witness :
    (∃ r : ExtractResult,
      extractTextFromPDF (fun _ => .ok ⟨some (List.replicate 50 'x'), some 1, none⟩)
        (.buffer [37]) = .ok r ∧ r.hasTextLayer = true) ∧
    ∃ r : ExtractResult,
      extractTextFromPDF (fun _ => .ok ⟨some (List.replicate 49 'x'), some 1, none⟩)
        (.buffer [37]) = .ok r ∧ r.hasTextLayer = false := by
  constructor
  · obtain ⟨r, hr, ht, hiff⟩ := claim_C8_text_layer
      (fun _ => .ok ⟨some (List.replicate 50 'x'), some 1, none⟩) [37]
      ⟨some (List.replicate 50 'x'), some 1, none⟩ (by decide) (by decide) rfl
    refine ⟨r, hr, hiff.mpr ?_⟩
    rw [ht]
    decide
  · obtain ⟨r, hr, ht, hiff⟩ := claim_C8_text_layer
      (fun _ => .ok ⟨some (List.replicate 49 'x'), some 1, none⟩) [37]
      ⟨some (List.replicate 49 'x'), some 1, none⟩ (by decide) (by decide) rfl
    refine ⟨r, hr, Bool.eq_false_iff.mpr fun hb => ?_⟩
    have h50 := hiff.mp hb
    rw [ht] at h50
    revert h50
    decide

/-! ## `validatePDF`: claim C7 -/

/-- Every `validatePDF` result is exactly one of: valid with a `null`
error, or invalid with a non-null error message. -/
lemma validatePDF_shape (load : List Nat → Except (List Char) Int)
    (input : BufferInput) :
    ((validatePDF load input).isValid = true ∧ (validatePDF load input).error = none) ∨
      ((validatePDF load input).isValid = false ∧
        ∃ m, (validatePDF load input).error = some m) := by
  cases input with
  | notBuffer => exact Or.inr ⟨rfl, _, rfl⟩
  | buffer buf =>
    simp only [validatePDF]
    by_cases h0 : buf.length = 0
    · rw [if_pos h0]
      exact Or.inr ⟨rfl, _, rfl⟩
    · rw [if_neg h0]
      by_cases hsz : buf.length > MAX_PDF_SIZE
      · rw [if_pos hsz]
        exact Or.inr ⟨rfl, _, rfl⟩
      · rw [if_neg hsz]
        by_cases hhd : asciiDecode (buf.take 5) ≠ "%PDF-".data
        · rw [if_pos hhd]
          exact Or.inr ⟨rfl, _, rfl⟩
        · rw [if_neg hhd]
          cases hld : load buf with
          | ok pc => exact Or.inl ⟨rfl, rfl⟩
          | error m => exact Or.inr ⟨rfl, _, rfl⟩

/-- An invalid `validatePDF` result always carries an error message. -/
lemma validatePDF_not_valid (load : List Nat → Except (List Char) Int)
    (input : BufferInput) (h : (validatePDF load input).isValid = false) :
    ∃ m, (validatePDF load input).error = some m := by
  rcases validatePDF_shape load input with ⟨hv, _⟩ | ⟨_, hm⟩
  · rw [hv] at h
    cases h
  · exact hm

/-- Claim C7: for every input value and every behaviour of the structural
load primitive, `validatePDF` returns a record in which exactly one of
`isValid = true ∧ error = null` or `isValid = false ∧ error ≠ null` holds
(the embedding is a total function: no path throws). -/
theorem claim_C7_validate_total (load : List Nat → Except (List Char) Int)
    (input : BufferInput) :
    ((validatePDF load input).isValid = true ∧ (validatePDF load input).error = none) ∨
      ((validatePDF load input).isValid = false ∧
        ∃ m, (validatePDF load input).error = some m) :=
  validatePDF_shape load input

/-! ## `preparePDFForAnalysis`: claim C9 -/

/-- Claim C9: whenever `preparePDFForAnalysis` returns an invalid record —
because validation failed or a downstream step threw — that record has
empty text, no chunks, the all-default classification, and a non-null
error message. -/
theorem claim_C9_failure_shape (load : List Nat → Except (List Char) Int)
    (pdfParse : List Nat → Except (List Char) ParsedPDF)
    (input : BufferInput) (options : ChunkOptions)
    (h : (preparePDFForAnalysis load pdfParse input options).isValid = false) :
    (preparePDFForAnalysis load pdfParse input options).text = [] ∧
    (preparePDFForAnalysis load pdfParse input options).chunks = [] ∧
    (preparePDFForAnalysis load pdfParse input options).documentInfo = emptyDocInfo ∧
    ∃ m, (preparePDFForAnalysis load pdfParse input options).error = some m := by
  by_cases hv : (validatePDF load input).isValid = false
  · have hP : preparePDFForAnalysis load pdfParse input options =
        ⟨false, (validatePDF load input).error, [], 0, false, emptyMetadata, emptyDocInfo, [],
          inputSize input⟩ := by
      simp only [preparePDFForAnalysis]
      rw [if_pos hv]
    obtain ⟨m, hm⟩ := validatePDF_not_valid load input hv
    rw [hP]
    exact ⟨rfl, rfl, rfl, m, hm⟩
  · cases hext : extractTextFromPDF pdfParse input with
    | error m =>
      have hP : preparePDFForAnalysis load pdfParse input options =
          prepFailure (validatePDF load input) input m := by
        simp only [preparePDFForAnalysis]
        rw [if_neg hv, hext]
      rw [hP]
      exact ⟨rfl, rfl, rfl, _, rfl⟩
    | ok extraction =>
      cases hch : chunkText extraction.text
          ⟨some (jsOr options.chunkSize DEFAULT_CHUNK_SIZE),
           some (jsOr options.overlap DEFAULT_CHUNK_OVERLAP)⟩ with
      | error m =>
        have hP : preparePDFForAnalysis load pdfParse input options =
            prepFailure (validatePDF load input) input m := by
          simp only [preparePDFForAnalysis]
          rw [if_neg hv, hext]
          simp only [hch]
        rw [hP]
        exact ⟨rfl, rfl, rfl, _, rfl⟩
      | ok chunks =>
        have hP : preparePDFForAnalysis load pdfParse input options =
            ⟨true, none, extraction.text, extraction.pageCount, extraction.hasTextLayer,
              extraction.metadata, detectDocumentType extraction.text, chunks,
              inputSize input⟩ := by
          simp only [preparePDFForAnalysis]
          rw [if_neg hv, hext]
          simp only [hch]
        rw [hP] at h
        exact Bool.noConfusion h

/-- Witness for claim C9 at a non-Buffer input. -/
theorem claim_C9_failure_shape_witness :
    (preparePDFForAnalysis (fun _ => .ok 1) (fun _ => .ok {}) .notBuffer {}).text = [] ∧
    (preparePDFForAnalysis (fun _ => .ok 1) (fun _ => .ok {}) .notBuffer {}).chunks = [] ∧
    (preparePDFForAnalysis (fun _ => .ok 1) (fun _ => .ok {})
      .notBuffer {}).documentInfo = emptyDocInfo ∧
    ∃ m, (preparePDFForAnalysis (fun _ => .ok 1) (fun _ => .ok {})
      .notBuffer {}).error = some m :=
  claim_C9_failure_shape (fun _ => .ok 1) (fun _ => .ok {}) .notBuffer {} rfl

/-! ## `detectDocumentType`: claims C5 and C6 -/

/-- Claim C5: `isIncomeTaxDocument` is true exactly when some catalog
pattern matches or at least two keyword regexes match; in particular
"Section 156" alone is classified as an income-tax document, a text with
three keyword matches and no section is, and "CBDT" alone (one keyword,
no section) is not. -/
theorem claim_C5_income_tax_flag :
    (∀ text : List Char,
      ((detectDocumentType text).isIncomeTaxDocument = true ↔
        (∃ e ∈ IT_SECTION_PATTERNS, rtest e.1 text = true) ∨
          2 ≤ (itKeywords.filter fun r => rtest r text).length)) ∧
    (detectDocumentType ("Section 156".data)).isIncomeTaxDocument = true ∧
    (detectDocumentType ("total income tax payable".data)).isIncomeTaxDocument = true ∧
    (detectDocumentType ("CBDT".data)).isIncomeTaxDocument = false := by
  refine ⟨?_, by decide, by decide, by decide⟩
  intro text
  by_cases htext : text = []
  · subst htext
    constructor
    · intro hfalse
      exact absurd hfalse (by decide)
    · intro hr
      rcases hr with ⟨e, he, hre⟩ | hk
      · have hany : IT_SECTION_PATTERNS.any (fun e => rtest e.1 []) = true :=
          List.any_eq_true.mpr ⟨e, he, hre⟩
        exact absurd hany (by decide)
      · have hz : (itKeywords.filter fun r => rtest r []).length = 0 := by decide
        omega
  · simp only [detectDocumentType, if_neg htext]
    rw [Bool.or_eq_true, decide_eq_true_iff, decide_eq_true_iff]
    refine or_congr ?_ Iff.rfl
    rw [ne_eq, List.map_eq_nil_iff, List.filter_eq_nil_iff]
    push_neg
    rfl

set_option maxRecDepth 10000 in
/-- Claim C6: the classification of the exact text
"Section 143(1) intimation for A.Y. 2023-24, PAN ABCDE1234F". -/
theorem claim_C6_exact_classification :
    detectDocumentType ("Section 143(1) intimation for A.Y. 2023-24, PAN ABCDE1234F".data) =
      ⟨["143(1)".data], "Intimation".data, ["ABCDE1234F".data], ["2023-24".data], true⟩ := by
  decide

end Profee
